import Mathlib

/-!
Verification of the AMFI spreadsheet section extractor.

This file is a shallow embedding, in Lean, of the parsing core of the
repository: `ExcelParser` (services/excel_parser.py), the storage step of
`DownloadService._parse_and_store` (services/download_service.py) keyed on the
unique pair declared in `AmfiMonthlyData.Meta` (models/amfi_monthly_data.py),
and the downstream bucket list of `views/amfi_api_views.py`.

Modelling conventions:
- A spreadsheet is read by pandas and immediately converted with
  `astype(str)`, so every cell is text.  A grid is `List (List String)`;
  an empty spreadsheet cell is rendered by pandas as the string "nan".
- Python `str.lower` / `str.strip` / `str.title` are modelled character-wise
  on ASCII (all keywords and labels in the source are ASCII).
- Python `float(...)` is modelled by `parseDecimal`, a parser for signed
  decimal literals returning `Rat`.  (`float` additionally accepts special
  values such as "inf"; the spec and the claims speak of decimal numbers.)
- `float(None)` raises `TypeError`, which the source catches and turns into
  a row skip; `parse_inflow none = none` models that.
- The Django store with the `unique_together = [month, scheme_category]`
  constraint is modelled as a `Finmap` keyed by that pair;
  `update_or_create` is insertion that overwrites the key.
-/

namespace Amfi

/-! ## Python string primitives -/

/-- Python `str.lower` (ASCII). -/
def pyLower (s : String) : String := String.mk (s.toList.map Char.toLower)

/-- Python `str.strip`: drop whitespace from both ends. -/
def pyStrip (s : String) : String :=
  String.mk (((s.toList.dropWhile Char.isWhitespace).reverse.dropWhile
      Char.isWhitespace).reverse)

/-- Helper for `pyTitle`: the Boolean argument records whether the previous
character was alphabetic. -/
def titleAux : Bool → List Char → List Char
  | _, [] => []
  | prevAlpha, c :: cs =>
    (if c.isAlpha then (if prevAlpha then c.toLower else c.toUpper) else c)
      :: titleAux c.isAlpha cs

/-- Python `str.title` (ASCII): uppercase the first letter of every
alphabetic run, lowercase the rest. -/
def pyTitle (s : String) : String := String.mk (titleAux false s.toList)

/-- `subAux pat cs`: does `pat` occur as a contiguous run inside `cs`? -/
def subAux (pat : List Char) : List Char → Bool
  | [] => pat.isEmpty
  | c :: cs => pat.isPrefixOf (c :: cs) || subAux pat cs

/-- Python `pat in s` substring test. -/
def strContainsSub (s pat : String) : Bool := subAux pat.toList s.toList

/-- Python `s[-2:]`: the last two characters (the whole string if shorter). -/
def lastTwo (s : String) : String := s.drop (s.length - 2)

/-- Digits to a natural number, most significant first. -/
def digitsToNat (ds : List Char) : Nat :=
  ds.foldl (fun n c => 10 * n + (c.toNat - 48)) 0

/-- Parse an unsigned decimal literal `digits [. digits]` (at least one digit
overall, no other characters). -/
def parseUnsignedDec (cs : List Char) : Option Rat :=
  let intDs := cs.takeWhile Char.isDigit
  let rest := cs.dropWhile Char.isDigit
  match rest with
  | [] => if intDs.isEmpty then none else some (mkRat (digitsToNat intDs) 1)
  | '.' :: r2 =>
    let fracDs := r2.takeWhile Char.isDigit
    let rest2 := r2.dropWhile Char.isDigit
    if rest2.isEmpty && !(intDs.isEmpty && fracDs.isEmpty) then
      some (mkRat (digitsToNat intDs * 10 ^ fracDs.length + digitsToNat fracDs)
        (10 ^ fracDs.length))
    else none
  | _ => none

/-- Model of Python `float(s)` on decimal literals: optional sign, then an
unsigned decimal, with surrounding whitespace stripped. -/
def parseDecimal (s : String) : Option Rat :=
  match (pyStrip s).toList with
  | '+' :: r => parseUnsignedDec r
  | '-' :: r => (parseUnsignedDec r).map Neg.neg
  | r => parseUnsignedDec r

/-! ## Fixed tables of `ExcelParser` (`services/excel_parser.py`) -/

/-- `ExcelParser.START_KEYWORDS`. -/
def START_KEYWORDS : List String := ["growth", "equity", "oriented"]

/-- `ExcelParser.END_KEYWORDS`. -/
def END_KEYWORDS : List String := ["sub total", "subtotal", "sub-total"]

/-- `ExcelParser.HEADER_KEYWORDS` (the last entry is the mojibake rendering of
the rupee sign exactly as it appears in the source). -/
def HEADER_KEYWORDS : List String := ["scheme", "net", "assets", "aum", "rs.", "â‚¹"]

/-- `ExcelParser.SCHEME_MAPPING`, as the ordered list of (substring pattern,
canonical label) pairs in source insertion order (Python dicts iterate in
insertion order). -/
def SCHEME_MAPPING : List (String × String) :=
  [("multi cap fund", "MULTI CAP FUND"),
   ("large cap fund", "LARGE CAP FUND"),
   ("large & mid cap fund", "LARGE & MID CAP FUND"),
   ("mid cap fund", "MID CAP FUND"),
   ("small cap fund", "SMALL CAP FUND"),
   ("dividend yield fund", "DIVIDEND YIELD FUND"),
   ("value fund/contra fund", "VALUE FUND/CONTRA FUND"),
   ("focused fund", "FOCUSED FUND"),
   ("sectoral/thematic", "SECTORAL/THEMATIC FUNDS"),
   ("elss", "ELSS"),
   ("flexi cap fund", "FLEXI CAP FUND")]

/-- The `invalid_keywords` list of `ExcelParser._is_invalid_row`. -/
def invalid_keywords : List String :=
  ["sub total", "subtotal", "sub-total", "growth/equity", "oriented scheme"]

/-- The `month_names` table of `ExcelParser._format_month_label`. -/
def month_names : List (String × String) :=
  [("jan", "Jan"), ("feb", "Feb"), ("mar", "Mar"), ("apr", "Apr"),
   ("may", "May"), ("jun", "Jun"), ("jul", "Jul"), ("aug", "Aug"),
   ("sep", "Sep"), ("oct", "Oct"), ("nov", "Nov"), ("dec", "Dec")]

/-! ## Section Locator (`_find_header_row`, `_find_growth_equity_section`) -/

/-- `" ".join(row).lower()` as used by all three row scans. -/
def row_text (row : List String) : String := pyLower (String.intercalate " " row)

/-- The header-scan predicate: any header keyword occurs in the row text. -/
def headerMatch (row : List String) : Bool :=
  HEADER_KEYWORDS.any (fun k => strContainsSub (row_text row) k)

/-- The section-start predicate: all three start keywords occur. -/
def startMatch (row : List String) : Bool :=
  START_KEYWORDS.all (fun k => strContainsSub (row_text row) k)

/-- The terminator predicate: any end keyword occurs. -/
def endMatch (row : List String) : Bool :=
  END_KEYWORDS.any (fun k => strContainsSub (row_text row) k)

/-- Index of the first list element satisfying `p` (the `for i, row ...:
if p(row): return i` loop shape used by the source). -/
def findIdxOpt {α : Type} (p : α → Bool) : List α → Option Nat
  | [] => none
  | x :: xs => if p x then some 0 else (findIdxOpt p xs).map (· + 1)

/-- `ExcelParser._find_header_row`: first row of the raw grid whose joined,
lowercased text contains any header keyword. -/
def find_header_row (grid : List (List String)) : Option Nat :=
  findIdxOpt headerMatch grid

/-- `ExcelParser._find_growth_equity_section` on the post-header frame:
the first row containing all start keywords, and from one past it the first
row containing any end keyword. -/
def find_growth_equity_section (body : List (List String)) :
    Option Nat × Option Nat :=
  match findIdxOpt startMatch body with
  | none => (none, none)
  | some s => (some s, (findIdxOpt endMatch (body.drop (s + 1))).map (· + (s + 1)))

/-- Pandas NA test on a cell of an `astype(str)` frame.  After `astype(str)`
every cell is a Python `str` and `pd.isna` is `False` on any `str` (an empty
spreadsheet cell has become the string "nan"), so this is constantly false. -/
def cellIsNA (_ : String) : Bool := false

/-- `section_df.dropna(how='all')`: drop the rows all of whose cells are NA. -/
def dropna_all (rows : List (List String)) : List (List String) :=
  rows.filter (fun r => !(r.all cellIsNA))

/-- The section slice computed by `ExcelParser.parse_excel` lines 57-78:
find the header, re-index past it (the `df.columns` relabelling and the
`df.columns.notna()` column drop are identities on a string-typed frame,
since the labels are strings and never NA), locate the section, slice
`[start, end)` and apply `dropna(how='all')`.  `none` models the early
`return []` on `HeaderNotFound` / `SectionNotFound`. -/
def section_slice (grid : List (List String)) : Option (List (List String)) :=
  match find_header_row grid with
  | none => none
  | some h =>
    let body := grid.drop (h + 1)
    match find_growth_equity_section body with
    | (some s, some e) => some (dropna_all ((body.drop s).take (e - s)))
    | _ => none

/-! ## Row Validator & Normalizer (`_parse_section_data`, `_is_invalid_row`) -/

/-- One parsed record (`{'month': ..., 'scheme': ..., 'net_inflow': ...}`). -/
structure AmfiRecord where
  month : String
  scheme : String
  net_inflow : Rat
deriving DecidableEq

/-- `ExcelParser._is_invalid_row`: the lowercased scheme text contains one of
the non-data markers. -/
def is_invalid_row (scheme_text : String) : Bool :=
  invalid_keywords.any (fun k => strContainsSub (pyLower scheme_text) k)

/-- `ExcelParser._standardize_scheme_name`: lowercase and strip, return the
label of the first mapping pair whose pattern occurs as a substring; on no
match, the title-cased stripped original. -/
def standardize_scheme_name (scheme_raw : String) : String :=
  let scheme_lower := pyStrip (pyLower scheme_raw)
  match SCHEME_MAPPING.find? (fun p => strContainsSub scheme_lower p.1) with
  | some p => p.2
  | none => pyTitle (pyStrip scheme_raw)

/-- `ExcelParser._format_month_label`: `month_names.get(month.lower(),
month.title())` and the last two characters of `str(year)`. -/
def format_month_label (month : String) (year : Nat) : String :=
  let month_abbr :=
    match month_names.find? (fun p => p.1 == pyLower month) with
    | some p => p.2
    | none => pyTitle month
  "01-" ++ month_abbr ++ "-" ++ lastTwo (toString year)

/-- `str(row.iloc[1]).strip() if len(row) > 1 else ""`. -/
def scheme_cell (row : List String) : String :=
  if row.length > 1 then pyStrip (row.getD 1 "") else ""

/-- `row.iloc[6] if len(row) > 6 else None`. -/
def inflow_cell (row : List String) : Option String :=
  if row.length > 6 then some (row.getD 6 "") else none

/-- `float(net_inflow_raw)` inside the `try`: `float(None)` raises
`TypeError`, caught as a row skip. -/
def parse_inflow : Option String → Option Rat
  | none => none
  | some s => parseDecimal s

/-- The body of the `_parse_section_data` loop for one row: skip when the
stripped scheme cell is empty or marked invalid, skip when the inflow cell
fails to parse, otherwise emit the record. -/
def row_record (month : String) (year : Nat) (row : List String) :
    Option AmfiRecord :=
  let scheme_raw := scheme_cell row
  if scheme_raw = "" || is_invalid_row scheme_raw then none
  else
    match parse_inflow (inflow_cell row) with
    | none => none
    | some v =>
      some ⟨format_month_label month year, standardize_scheme_name scheme_raw, v⟩

/-- `ExcelParser._parse_section_data`: the row loop, appending each
non-skipped record. -/
def parse_section_data (month : String) (year : Nat) :
    List (List String) → List AmfiRecord
  | [] => []
  | row :: rest =>
    match row_record month year row with
    | none => parse_section_data month year rest
    | some r => r :: parse_section_data month year rest

/-- `ExcelParser.parse_excel`: locate the section and parse it; on
`HeaderNotFound` / `SectionNotFound` return the empty list. -/
def parse_excel (grid : List (List String)) (month : String) (year : Nat) :
    List AmfiRecord :=
  match section_slice grid with
  | none => []
  | some sect => parse_section_data month year sect

/-! ## Record Builder / durable store
(`DownloadService._parse_and_store`, `AmfiMonthlyData.Meta`) -/

/-- The unique key `(month, scheme_category)` of `AmfiMonthlyData.Meta`
(`unique_together = [month, scheme_category]`). -/
abbrev StoreKey := String × String

/-- The durable store: a finite map keyed by the unique pair, the state of
the `amfi_monthly_data` table. -/
abbrev Store := Finmap (fun _ : StoreKey => Rat)

/-- The key of a record, as passed to `update_or_create`. -/
def record_key (r : AmfiRecord) : StoreKey := (r.month, r.scheme)

/-- `AmfiMonthlyData.objects.update_or_create(month=..., scheme_category=...,
defaults={'net_inflow': ...})`: overwrite the row with that key, or create
it. -/
def update_or_create (s : Store) (r : AmfiRecord) : Store :=
  s.insert (record_key r) r.net_inflow

/-- The storage loop of `_parse_and_store`. -/
def store_records (s : Store) (rs : List AmfiRecord) : Store :=
  rs.foldl update_or_create s

/-- The value a batch of upserts itself assigns to key `k`: the `net_inflow`
of the last record in the list whose `(month, scheme)` pair is `k`, if any. -/
def last_val : List AmfiRecord → StoreKey → Option Rat
  | [], _ => none
  | r :: rs, k =>
    match last_val rs k with
    | some v => some v
    | none => if record_key r = k then some r.net_inflow else none

/-- The `status` values `_parse_and_store` can report.  (`parse_error` is the
store-level exception branch; the Lean store model is total, so it never
arises here.) -/
inductive ParseStatus where
  | parse_success
  | parse_failed
  | parse_error
deriving DecidableEq

/-- `DownloadService._parse_and_store`: parse, report `parse_failed` with no
records on an empty parse, otherwise upsert every record and report
`parse_success` with the count. -/
def parse_and_store (grid : List (List String)) (month : String) (year : Nat)
    (s : Store) : ParseStatus × Nat × Store :=
  let parsed := parse_excel grid month year
  if parsed = [] then (ParseStatus.parse_failed, 0, s)
  else (ParseStatus.parse_success, parsed.length, store_records s parsed)

/-! ## Downstream read contract (`views/amfi_api_views.py`) -/

/-- `LARGE_MIDCAP_BUCKET` of `views/amfi_api_views.py`. -/
def LARGE_MIDCAP_BUCKET : List String :=
  ["LARGE CAP FUND", "MID CAP FUND", "LARGE & MID CAP FUND", "FLEXI CAP FUND",
   "FOCUSED FUND", "VALUE FUND/CONTRA FUND", "DIVIDEND YIELD FUND", "ELSS",
   "SECTORAL/THEMATIC FUNDS", "MULTI CAP FUND"]

/-- The literal small-cap filter of `YearSummaryView.get`
(`scheme_category="SMALL CAP FUND"`). -/
def SMALL_CAP_FILTER : String := "SMALL CAP FUND"

/-! ## Concrete fixture grids -/

/-- A grid shaped like a real AMFI sheet: junk row, header row, note row,
section title, two data rows, subtotal terminator. -/
def demo_grid : List (List String) :=
  [["x", "y"],
   ["Sr", "Scheme Name", "c2", "c3", "c4", "c5", "Net Inflow (Rs. crore)"],
   ["note"],
   ["", "Growth/Equity Oriented Schemes", "", "", "", "", ""],
   ["1", "Small Cap Fund", "a", "b", "c", "d", "3476.04"],
   ["2", "Large Cap Fund", "a", "b", "c", "d", "971.97"],
   ["", "Sub Total", "", "", "", "", "21214.29"]]

/-- A grid none of whose rows contains any header keyword. -/
def headerless_grid : List (List String) := [["alpha", "beta"]]

/-- A grid whose header and section are found but whose only section row is
the section title itself, so zero records are produced. -/
def found_empty_grid : List (List String) :=
  [["Scheme", "Net AUM"],
   ["Growth/Equity Oriented Schemes"],
   ["Sub Total", "b", "c", "d", "e", "f", "99.9"]]

/-- A grid whose section contains an all-empty spreadsheet row: pandas reads
the empty cells as NaN and `astype(str)` renders every one of them "nan". -/
def blank_row_grid : List (List String) :=
  [["Sr", "Scheme Name", "c2", "c3", "c4", "c5", "Net Inflow (Rs. crore)"],
   ["", "Growth/Equity Oriented Schemes", "", "", "", "", ""],
   ["1", "Multi Cap Fund", "a", "b", "c", "d", "1001.5"],
   ["nan", "nan", "nan", "nan", "nan", "nan", "nan"],
   ["2", "Small Cap Fund", "a", "b", "c", "d", "3476.04"],
   ["", "Sub Total", "", "", "", "", "21214.29"]]

/-! ## First-match characterizations of the scans -/

/-- The scan finds nothing exactly when no element matches. -/
theorem findIdxOpt_eq_none_iff {α : Type} (p : α → Bool) :
    ∀ l : List α, findIdxOpt p l = none ↔ ∀ x ∈ l, p x = false
  | [] => by simp [findIdxOpt]
  | x :: xs => by
    cases hpx : p x with
    | true => simp [findIdxOpt, hpx]
    | false =>
      simp [findIdxOpt, hpx, Option.map_eq_none', findIdxOpt_eq_none_iff p xs]

/-- The scan returns `i` exactly when the element at `i` matches and none
before it does. -/
theorem findIdxOpt_eq_some_iff {α : Type} (p : α → Bool) :
    ∀ (l : List α) (i : Nat), findIdxOpt p l = some i ↔
      ((∃ x, l[i]? = some x ∧ p x = true) ∧ ∀ y ∈ l.take i, p y = false)
  | [], i => by simp [findIdxOpt]
  | x :: xs, i => by
    cases hpx : p x with
    | true =>
      cases i with
      | zero => simp [findIdxOpt, hpx]
      | succ k =>
        refine iff_of_false (by simp [findIdxOpt, hpx]) ?_
        rintro ⟨-, hall⟩
        have hx : x ∈ (x :: xs).take (k + 1) := by simp
        have := hall x hx
        simp [hpx] at this
    | false =>
      cases i with
      | zero => simp [findIdxOpt, hpx]
      | succ k =>
        simp [findIdxOpt, hpx, Option.map_eq_some',
          findIdxOpt_eq_some_iff p xs k]

/-- A found index is in range. -/
theorem findIdxOpt_lt_length {α : Type} {p : α → Bool} {l : List α} {i : Nat}
    (h : findIdxOpt p l = some i) : i < l.length := by
  obtain ⟨⟨x, hx, -⟩, -⟩ := (findIdxOpt_eq_some_iff p l i).mp h
  exact (List.getElem?_eq_some.mp hx).1

/-- `List.find?` returns the element at the first matching index. -/
theorem find?_eq_some_of_first {α : Type} (p : α → Bool) :
    ∀ (l : List α) (i : Nat) (x : α), l[i]? = some x → p x = true →
      (∀ y ∈ l.take i, p y = false) → l.find? p = some x
  | [], i, x, hx, _, _ => by simp at hx
  | a :: as, 0, x, hx, hpx, _ => by
    simp only [List.getElem?_cons_zero, Option.some.injEq] at hx
    subst hx
    simp [List.find?_cons_of_pos _ hpx]
  | a :: as, k + 1, x, hx, hpx, hfirst => by
    have hpa : p a = false := hfirst a (by simp)
    have : (a :: as).find? p = as.find? p := List.find?_cons_of_neg _ (by simp [hpa])
    rw [this]
    exact find?_eq_some_of_first p as k x (by simpa using hx) hpx
      (fun y hy => hfirst y (by simp [List.take_succ_cons, hy]))

/-! ## The row loop as a filterMap -/

/-- The `_parse_section_data` loop processes rows independently: it is the
`filterMap` of the per-row function. -/
theorem parse_section_data_eq_filterMap (month : String) (year : Nat) :
    ∀ rows : List (List String),
      parse_section_data month year rows = rows.filterMap (row_record month year)
  | [] => rfl
  | row :: rest => by
    cases h : row_record month year row with
    | none =>
      simp [parse_section_data, h, List.filterMap_cons,
        parse_section_data_eq_filterMap month year rest]
    | some r =>
      simp [parse_section_data, h, List.filterMap_cons,
        parse_section_data_eq_filterMap month year rest]

/-! ## Title casing preserves length -/

theorem titleAux_length : ∀ (b : Bool) (cs : List Char),
    (titleAux b cs).length = cs.length
  | _, [] => rfl
  | b, c :: cs => by simp [titleAux, titleAux_length c.isAlpha cs]

/-- `pyTitle` of a non-empty string is non-empty. -/
theorem pyTitle_ne_empty {s : String} (h : s ≠ "") : pyTitle s ≠ "" := by
  intro hcon
  apply h
  have hdata : (pyTitle s).data = ("" : String).data := by rw [hcon]
  have hlen : (titleAux false s.toList).length = 0 := by
    simpa [pyTitle] using congrArg List.length hdata
  rw [titleAux_length] at hlen
  have : s.data = [] := List.length_eq_zero.mp hlen
  exact String.ext this

/-! ## Store upserts: last write per key wins -/

/-- Applying a batch of upserts: a key written by the batch holds the last
value written to it; any other key is untouched. -/
theorem lookup_store_records :
    ∀ (rs : List AmfiRecord) (s : Store) (k : StoreKey),
      (store_records s rs).lookup k =
        match last_val rs k with
        | some v => some v
        | none => s.lookup k
  | [], s, k => by simp [store_records, last_val]
  | r :: rs, s, k => by
    have hstep : store_records s (r :: rs) = store_records (update_or_create s r) rs := by
      simp [store_records]
    rw [hstep, lookup_store_records rs (update_or_create s r) k]
    cases h : last_val rs k with
    | some v => simp [last_val, h]
    | none =>
      by_cases hk : record_key r = k
      · subst hk
        simp [last_val, h, update_or_create, Finmap.lookup_insert]
      · simp [last_val, h, hk, update_or_create,
          Finmap.lookup_insert_of_ne _ (fun hc => hk hc.symm)]

/-- Upserting the same batch twice leaves the store exactly as upserting it
once. -/
theorem store_records_idem (s : Store) (rs : List AmfiRecord) :
    store_records (store_records s rs) rs = store_records s rs := by
  apply Finmap.ext_lookup
  intro k
  cases h : last_val rs k with
  | some v =>
    rw [lookup_store_records, lookup_store_records]
    simp [h]
  | none =>
    rw [lookup_store_records, lookup_store_records]
    simp [h]

/-! ## Claim theorems -/

/-- Claim C9: every canonical label of the fixed mapping other than
"SMALL CAP FUND" is literally an element of the downstream large/midcap
bucket list, "SMALL CAP FUND" is literally the small-cap filter string of
`YearSummaryView.get` and is not in the bucket — so each mapped label
classifies into exactly one of the two summary buckets. -/
theorem c9_labels_classify :
    ∀ p ∈ SCHEME_MAPPING,
      (p.2 = SMALL_CAP_FILTER ∧ p.2 ∉ LARGE_MIDCAP_BUCKET) ∨
      (p.2 ≠ SMALL_CAP_FILTER ∧ p.2 ∈ LARGE_MIDCAP_BUCKET) := by decide

/-- Witness for C9 at the small-cap mapping entry. -/
theorem c9_witness :
    (("small cap fund", "SMALL CAP FUND") ∈ SCHEME_MAPPING) ∧
      (((("small cap fund", "SMALL CAP FUND") : String × String).2 = SMALL_CAP_FILTER ∧
          (("small cap fund", "SMALL CAP FUND") : String × String).2 ∉ LARGE_MIDCAP_BUCKET) ∨
        ((("small cap fund", "SMALL CAP FUND") : String × String).2 ≠ SMALL_CAP_FILTER ∧
          (("small cap fund", "SMALL CAP FUND") : String × String).2 ∈ LARGE_MIDCAP_BUCKET)) := by
  exact ⟨by decide, c9_labels_classify _ (by decide)⟩

/-- Claim C10: a section row with at most 6 cells never yields a record:
with at most 1 cell the scheme cell is taken to be empty, with at most
6 cells the inflow cell is absent and its parse fails; either way the row
is skipped (cell access is guarded by the length tests). -/
theorem c10_short_rows_skip (month : String) (year : Nat) (row : List String) :
    (row.length ≤ 1 → scheme_cell row = "") ∧
    (row.length ≤ 6 → inflow_cell row = none) ∧
    (row.length ≤ 6 → row_record month year row = none) := by
  refine ⟨?_, ?_, ?_⟩
  · intro h
    rw [scheme_cell, if_neg (by omega)]
  · intro h
    rw [inflow_cell, if_neg (by omega)]
  · intro h
    have hinf : inflow_cell row = none := by rw [inflow_cell, if_neg (by omega)]
    simp [row_record, hinf, parse_inflow]

/-- Witness for C10 on a 2-cell row with a valid scheme name. -/
theorem c10_witness :
    (["1", "Small Cap Fund"] : List String).length ≤ 6 ∧
      row_record "oct" 2025 ["1", "Small Cap Fund"] = none :=
  ⟨by decide, (c10_short_rows_skip "oct" 2025 ["1", "Small Cap Fund"]).2.2 (by decide)⟩

/-- Claim C2: the row loop is a per-row filterMap (one bad row never aborts
the batch); a row yields a record exactly when the stripped scheme cell is
non-empty, free of the non-data markers, and the inflow cell parses; and any
row whose scheme cell contains a terminator keyword yields nothing. -/
theorem c2_row_validator (month : String) (year : Nat) :
    (∀ rows : List (List String),
        parse_section_data month year rows =
          rows.filterMap (row_record month year)) ∧
    (∀ row : List String,
        (∃ rec, row_record month year row = some rec) ↔
          (scheme_cell row ≠ "" ∧ is_invalid_row (scheme_cell row) = false ∧
            ∃ v, parse_inflow (inflow_cell row) = some v)) ∧
    (∀ row : List String,
        (∃ k ∈ END_KEYWORDS,
            strContainsSub (pyLower (scheme_cell row)) k = true) →
          row_record month year row = none) := by
  refine ⟨parse_section_data_eq_filterMap month year, ?_, ?_⟩
  · intro row
    constructor
    · rintro ⟨rec, hrec⟩
      by_cases h1 : scheme_cell row = ""
      · simp [row_record, h1] at hrec
      · by_cases h2 : is_invalid_row (scheme_cell row)
        · simp [row_record, h2] at hrec
        · cases hv : parse_inflow (inflow_cell row) with
          | none => simp [row_record, h1, h2, hv] at hrec
          | some v => exact ⟨h1, by simpa using h2, v, rfl⟩
    · rintro ⟨h1, h2, v, hv⟩
      refine ⟨⟨format_month_label month year,
        standardize_scheme_name (scheme_cell row), v⟩, ?_⟩
      simp [row_record, h1, h2, hv]
  · rintro row ⟨k, hk, hsub⟩
    have hsubset : ∀ x ∈ END_KEYWORDS, x ∈ invalid_keywords := by decide
    have hmem : k ∈ invalid_keywords := hsubset k hk
    have hinv : is_invalid_row (scheme_cell row) = true := by
      unfold is_invalid_row
      rw [List.any_eq_true]
      exact ⟨k, hmem, hsub⟩
    simp [row_record, hinv]

/-- Witness for C2: the subtotal row itself is skipped. -/
theorem c2_witness :
    (∃ k ∈ END_KEYWORDS,
        strContainsSub
          (pyLower (scheme_cell ["", "Sub Total", "", "", "", "", "21214.29"]))
          k = true) ∧
      row_record "oct" 2025 ["", "Sub Total", "", "", "", "", "21214.29"] = none :=
  ⟨by decide, (c2_row_validator "oct" 2025).2.2 _ (by decide)⟩

/-- Counterexample to claim C5 as stated: the single-space string is a
non-empty input on which the standardizer returns the empty string (its
trim is empty, no pattern matches the empty text, and title-casing the
empty trim yields the empty string). -/
theorem c5_counterexample :
    (" " : String) ≠ "" ∧ standardize_scheme_name " " = "" := by decide

/-- Claim C5 (amended): for every input whose stripped text is non-empty the
standardizer returns a non-empty label — either a mapping label (all of
which are non-empty) or the title-cased stripped input. -/
theorem c5_total_on_trimmed (s : String) (h : pyStrip s ≠ "") :
    standardize_scheme_name s ≠ "" := by
  have hlabel : ∀ q ∈ SCHEME_MAPPING, q.2 ≠ "" := by decide
  cases hf : SCHEME_MAPPING.find?
      (fun p => strContainsSub (pyStrip (pyLower s)) p.1) with
  | some p =>
    simp only [standardize_scheme_name, hf]
    exact hlabel p (List.mem_of_find?_eq_some hf)
  | none =>
    simp only [standardize_scheme_name, hf]
    exact pyTitle_ne_empty h

/-- Witness for the amended C5. -/
theorem c5_witness :
    pyStrip "Unlisted Thing" ≠ "" ∧ standardize_scheme_name "Unlisted Thing" ≠ "" :=
  ⟨by decide, c5_total_on_trimmed "Unlisted Thing" (by decide)⟩

/-- Claim C6: the period label is `01-<Mon>-<YY>`, where the month
abbreviation is looked up case-insensitively in the fixed 12-entry table
(title-casing the raw token when unrecognized) and `<YY>` is the last two
digits of the year; in particular the two pinned examples hold. -/
theorem c6_month_label (month : String) (year : Nat) :
    (∀ p ∈ month_names, pyLower month = p.1 →
        format_month_label month year =
          "01-" ++ p.2 ++ "-" ++ lastTwo (toString year)) ∧
    ((∀ p ∈ month_names, pyLower month ≠ p.1) →
        format_month_label month year =
          "01-" ++ pyTitle month ++ "-" ++ lastTwo (toString year)) ∧
    format_month_label "oct" 2025 = "01-Oct-25" ∧
    format_month_label "JAN" 2006 = "01-Jan-06" := by
  refine ⟨?_, ?_, by decide, by decide⟩
  · intro p hp hkey
    have hfind : month_names.find? (fun q => q.1 == pyLower month) = some p := by
      fin_cases hp
      all_goals rw [hkey]
      all_goals decide
    simp [format_month_label, hfind]
  · intro hall
    have hfind : month_names.find? (fun q => q.1 == pyLower month) = none := by
      rw [List.find?_eq_none]
      intro q hq
      simpa using fun hc => hall q hq hc.symm
    simp [format_month_label, hfind]

/-- Witness for C6 on an unrecognized month token. -/
theorem c6_witness :
    (∀ p ∈ month_names, pyLower "sept" ≠ p.1) ∧
      format_month_label "sept" 2024 =
        "01-" ++ pyTitle "sept" ++ "-" ++ lastTwo (toString 2024) :=
  ⟨by decide, (c6_month_label "sept" 2024).2.1 (by decide)⟩

/-- Claim C4: the standardizer lowercases and strips the input and returns
the label of the first mapping pair, in table order, whose pattern occurs as
a substring; only when no pattern matches does it fall back to the
title-cased stripped original. -/
theorem c4_standardizer_first_match (s : String) :
    (∀ (i : Nat) (hi : i < SCHEME_MAPPING.length),
        strContainsSub (pyStrip (pyLower s)) (SCHEME_MAPPING.get ⟨i, hi⟩).1 = true →
        (∀ y ∈ SCHEME_MAPPING.take i,
            strContainsSub (pyStrip (pyLower s)) y.1 = false) →
        standardize_scheme_name s = (SCHEME_MAPPING.get ⟨i, hi⟩).2) ∧
    ((∀ y ∈ SCHEME_MAPPING, strContainsSub (pyStrip (pyLower s)) y.1 = false) →
        standardize_scheme_name s = pyTitle (pyStrip s)) := by
  constructor
  · intro i hi hmatch hfirst
    have hget : SCHEME_MAPPING[i]? = some (SCHEME_MAPPING.get ⟨i, hi⟩) := by
      rw [List.getElem?_eq_getElem hi, List.get_eq_getElem]
    have hfind := find?_eq_some_of_first
      (fun p => strContainsSub (pyStrip (pyLower s)) p.1)
      SCHEME_MAPPING i _ hget hmatch hfirst
    simp [standardize_scheme_name, hfind]
  · intro hall
    have hfind : SCHEME_MAPPING.find?
        (fun p => strContainsSub (pyStrip (pyLower s)) p.1) = none := by
      rw [List.find?_eq_none]
      intro p hp
      simp [hall p hp]
    simp [standardize_scheme_name, hfind]

/-- Witness for C4: "Mid Cap Fund" hits table position 3 (the earlier
patterns, including the longer "large & mid cap fund", do not occur). -/
theorem c4_witness :
    (3 < SCHEME_MAPPING.length) ∧
      standardize_scheme_name "Mid Cap Fund" =
        (SCHEME_MAPPING.get ⟨3, by decide⟩).2 :=
  ⟨by decide, (c4_standardizer_first_match "Mid Cap Fund").1 3 (by decide)
    (by decide) (by decide)⟩

/-- The first component of the section finder is the start scan. -/
theorem find_growth_equity_section_fst (body : List (List String)) :
    (find_growth_equity_section body).1 = findIdxOpt startMatch body := by
  unfold find_growth_equity_section
  cases findIdxOpt startMatch body <;> rfl

/-- Claim C1: the header scan returns the first row whose joined lowercased
text contains a header keyword and signals not-found (`none`) otherwise; the
start scan returns the first post-header row containing all three section
keywords; the end scan returns the first row strictly after the start
containing a terminator keyword; a failed start or end scan leaves `none` in
the corresponding component (the `SectionNotFound` signal).  First match
wins in all three scans. -/
theorem c1_section_locator (grid body : List (List String)) :
    (∀ i, find_header_row grid = some i ↔
        ((∃ row, grid[i]? = some row ∧ headerMatch row = true) ∧
          ∀ row ∈ grid.take i, headerMatch row = false)) ∧
    (find_header_row grid = none ↔ ∀ row ∈ grid, headerMatch row = false) ∧
    (∀ s, (find_growth_equity_section body).1 = some s ↔
        ((∃ row, body[s]? = some row ∧ startMatch row = true) ∧
          ∀ row ∈ body.take s, startMatch row = false)) ∧
    ((find_growth_equity_section body).1 = none ↔
        ∀ row ∈ body, startMatch row = false) ∧
    (∀ s e, find_growth_equity_section body = (some s, some e) ↔
        (((∃ row, body[s]? = some row ∧ startMatch row = true) ∧
            ∀ row ∈ body.take s, startMatch row = false) ∧
          s < e ∧
          (∃ row, body[e]? = some row ∧ endMatch row = true) ∧
          ∀ row ∈ (body.take e).drop (s + 1), endMatch row = false)) ∧
    (∀ s, find_growth_equity_section body = (some s, none) ↔
        (((∃ row, body[s]? = some row ∧ startMatch row = true) ∧
            ∀ row ∈ body.take s, startMatch row = false) ∧
          ∀ row ∈ body.drop (s + 1), endMatch row = false)) := by
  refine ⟨?_, ?_, ?_, ?_, ?_, ?_⟩
  · intro i
    exact findIdxOpt_eq_some_iff headerMatch grid i
  · exact findIdxOpt_eq_none_iff headerMatch grid
  · intro s
    rw [find_growth_equity_section_fst]
    exact findIdxOpt_eq_some_iff startMatch body s
  · rw [find_growth_equity_section_fst]
    exact findIdxOpt_eq_none_iff startMatch body
  · intro s e
    cases hs : findIdxOpt startMatch body with
    | none =>
      apply iff_of_false
      · simp [find_growth_equity_section, hs]
      · rintro ⟨hstart, -⟩
        have h2 := (findIdxOpt_eq_some_iff startMatch body s).mpr hstart
        rw [hs] at h2
        exact Option.noConfusion h2
    | some s0 =>
      constructor
      · intro heq
        simp only [find_growth_equity_section, hs] at heq
        have h1 : s0 = s := by
          have := congrArg Prod.fst heq
          simpa using this
        subst h1
        have h2 : (findIdxOpt endMatch (body.drop (s0 + 1))).map (· + (s0 + 1)) = some e := by
          have := congrArg Prod.snd heq
          simpa using this
        obtain ⟨k, hk, hke⟩ := Option.map_eq_some'.mp h2
        obtain ⟨⟨row, hrow, hmatchrow⟩, hfirst⟩ :=
          (findIdxOpt_eq_some_iff endMatch _ k).mp hk
        refine ⟨(findIdxOpt_eq_some_iff startMatch body s0).mp hs,
          by omega, ⟨row, ?_, hmatchrow⟩, ?_⟩
        · rw [List.getElem?_drop] at hrow
          rw [show e = s0 + 1 + k from by omega]
          exact hrow
        · intro y hy
          rw [List.drop_take] at hy
          rw [show e - (s0 + 1) = k from by omega] at hy
          exact hfirst y hy
      · rintro ⟨hstart, hlt, ⟨row, hrow, hmatchrow⟩, hbetween⟩
        have hs2 := (findIdxOpt_eq_some_iff startMatch body s).mpr hstart
        rw [hs] at hs2
        have hs3 : s0 = s := by
          simpa using hs2
        subst hs3
        have hk : findIdxOpt endMatch (body.drop (s0 + 1)) = some (e - (s0 + 1)) := by
          apply (findIdxOpt_eq_some_iff endMatch _ _).mpr
          refine ⟨⟨row, ?_, hmatchrow⟩, ?_⟩
          · rw [List.getElem?_drop,
              show s0 + 1 + (e - (s0 + 1)) = e from by omega]
            exact hrow
          · intro y hy
            apply hbetween
            rw [List.drop_take]
            exact hy
        have hsum : e - (s0 + 1) + (s0 + 1) = e := by omega
        simp [find_growth_equity_section, hs, hk, hsum]
  · intro s
    cases hs : findIdxOpt startMatch body with
    | none =>
      apply iff_of_false
      · simp [find_growth_equity_section, hs]
      · rintro ⟨hstart, -⟩
        have h2 := (findIdxOpt_eq_some_iff startMatch body s).mpr hstart
        rw [hs] at h2
        exact Option.noConfusion h2
    | some s0 =>
      constructor
      · intro heq
        simp only [find_growth_equity_section, hs] at heq
        have h1 : s0 = s := by
          have := congrArg Prod.fst heq
          simpa using this
        subst h1
        have h2 : (findIdxOpt endMatch (body.drop (s0 + 1))).map (· + (s0 + 1)) = none := by
          have := congrArg Prod.snd heq
          simpa using this
        have hnone := Option.map_eq_none'.mp h2
        exact ⟨(findIdxOpt_eq_some_iff startMatch body s0).mp hs,
          (findIdxOpt_eq_none_iff endMatch _).mp hnone⟩
      · rintro ⟨hstart, hafter⟩
        have hs2 := (findIdxOpt_eq_some_iff startMatch body s).mpr hstart
        rw [hs] at hs2
        have hs3 : s0 = s := by
          simpa using hs2
        subst hs3
        have hnone : findIdxOpt endMatch (body.drop (s0 + 1)) = none :=
          (findIdxOpt_eq_none_iff endMatch _).mpr hafter
        simp [find_growth_equity_section, hs, hnone]

/-- Claim C8 (bug exhibit): on `blank_row_grid` the locator returns a
well-formed section with `start < end ≤ len`, but the all-empty spreadsheet
row (all cells "nan" after `astype(str)`) inside `[start, end)` is NOT
dropped by the `dropna(how='all')` step — it is still present in the slice
handed to row validation, because `astype(str)` leaves no NA cell for
`dropna` to see. -/
theorem c8_blank_row_not_dropped :
    find_header_row blank_row_grid = some 0 ∧
    find_growth_equity_section (blank_row_grid.drop 1) = (some 0, some 4) ∧
    (0 : Nat) < 4 ∧ 4 ≤ (blank_row_grid.drop 1).length ∧
    section_slice blank_row_grid =
      some [["", "Growth/Equity Oriented Schemes", "", "", "", "", ""],
            ["1", "Multi Cap Fund", "a", "b", "c", "d", "1001.5"],
            ["nan", "nan", "nan", "nan", "nan", "nan", "nan"],
            ["2", "Small Cap Fund", "a", "b", "c", "d", "3476.04"]] := by decide

/-- Counterexample to claim C7 as stated: an ingestion whose header scan
fails and an ingestion whose section IS found but which produces zero
records report the SAME status (`parse_failed`), not different ones. -/
theorem c7_counterexample :
    find_header_row headerless_grid = none ∧
    (∃ sect, section_slice found_empty_grid = some sect) ∧
    (parse_and_store found_empty_grid "oct" 2025 ∅).1 = ParseStatus.parse_failed ∧
    (parse_and_store headerless_grid "oct" 2025 ∅).1 = ParseStatus.parse_failed ∧
    (parse_and_store found_empty_grid "oct" 2025 ∅).1 =
      (parse_and_store headerless_grid "oct" 2025 ∅).1 := by
  refine ⟨by decide, ⟨[["Growth/Equity Oriented Schemes"]], by decide⟩,
    by decide, by decide, by decide⟩

/-- Claim C7 (amended): zero-record outcomes are reported uniformly —
`parse_failed` exactly when the parse produced no records (whether the
section was found or not), `parse_success` exactly when it produced at
least one; `parse_error` is reserved for store-level failures. -/
theorem c7_amended_statuses (grid : List (List String)) (month : String)
    (year : Nat) (s : Store) :
    ((parse_and_store grid month year s).1 = ParseStatus.parse_failed ↔
        parse_excel grid month year = []) ∧
    ((parse_and_store grid month year s).1 = ParseStatus.parse_success ↔
        parse_excel grid month year ≠ []) := by
  unfold parse_and_store
  by_cases h : parse_excel grid month year = [] <;> simp [h]

/-- Claim C3: re-running the full ingestion on the same document leaves the
durable store (and hence its record count) exactly as after one run —
the parse is deterministic and every record is upserted on the unique
`(month, scheme_category)` key, so the second run only overwrites. -/
theorem c3_ingestion_idempotent (grid : List (List String)) (month : String)
    (year : Nat) (s : Store) :
    (parse_and_store grid month year
        ((parse_and_store grid month year s).2.2)).2.2 =
      (parse_and_store grid month year s).2.2 ∧
    ((parse_and_store grid month year
        ((parse_and_store grid month year s).2.2)).2.2).entries.card =
      ((parse_and_store grid month year s).2.2).entries.card := by
  have hmain : (parse_and_store grid month year
      ((parse_and_store grid month year s).2.2)).2.2 =
      (parse_and_store grid month year s).2.2 := by
    unfold parse_and_store
    by_cases h : parse_excel grid month year = []
    · simp [h]
    · simp [h, store_records_idem]
  exact ⟨hmain, congrArg (fun t => t.entries.card) hmain⟩

end Amfi
